import Mathlib

/-!
Verification of the AI product recommender front-end core. The
definitions below are shallow embeddings of the TypeScript source:
JavaScript objects become association lists in insertion order, the
network calls of the workflow are replaced by explicit oracle inputs
(their responses), and numbers that are only ever compared are
modelled as integers.
-/

namespace AIRec

/-- Model of a JSON value as manipulated by the requirement-merging
utilities. Only the discriminations the source performs are needed:
null, strings (with the empty string special-cased) and nested
objects, an object being its fields in insertion order. -/
inductive JVal where
  | null : JVal
  | str : String → JVal
  | obj : List (String × JVal) → JVal
deriving Repr

/-- Property lookup on a JavaScript object (fields in insertion order,
keys unique in any object produced by the runtime). -/
def jsGet (m : List (String × JVal)) (k : String) : Option JVal :=
  (m.find? (fun p => p.1 == k)).map Prod.snd

/-- The JavaScript `key in obj` test. -/
def hasKey (m : List (String × JVal)) (k : String) : Bool :=
  (jsGet m k).isSome

/-- Property assignment `obj[k] = v` on a JavaScript object: an
existing key keeps its position and gets the new value, a new key is
appended. -/
def objSet (m : List (String × JVal)) (k : String) (v : JVal) : List (String × JVal) :=
  if hasKey m k then m.map (fun p => if p.1 == k then (k, v) else p)
  else m ++ [(k, v)]

/-- The object spread `\x7b ...a, ...b \x7d`: start from `a`, assign
every field of `b` in order. -/
def spreadMerge (a b : List (String × JVal)) : List (String × JVal) :=
  b.foldl (fun m p => objSet m p.1 p.2) a

/-- Requirement schema as used by `mergeRequirementsWithSchema`: the
two groups may each be absent (`undefined`/`null` in the source, both
falsy). -/
structure RequirementSchema where
  mandatoryRequirements : Option (List (String × JVal))
  optionalRequirements : Option (List (String × JVal))

/-- The key list `allKeys` built inside `mergeRequirementsWithSchema`:
keys of the mandatory group then keys of the optional group, a missing
group contributing nothing. -/
def schemaKeys (schema : RequirementSchema) : List String :=
  ((schema.mandatoryRequirements.map (List.map Prod.fst)).getD [])
    ++ ((schema.optionalRequirements.map (List.map Prod.fst)).getD [])

/-- One step of the `allKeys.forEach` loop of
`mergeRequirementsWithSchema`: a key not yet present is bound to the
empty string. -/
def mergeStep (merged : List (String × JVal)) (key : String) : List (String × JVal) :=
  if hasKey merged key then merged else merged ++ [(key, JVal.str "")]

/-- Embedding of `mergeRequirementsWithSchema` (part_007, lines
234-244): copy `provided`, then bind every schema key that is not yet
present to the empty string. -/
def mergeRequirementsWithSchema (provided : List (String × JVal))
    (schema : RequirementSchema) : List (String × JVal) :=
  (schemaKeys schema).foldl mergeStep provided

/-- The guard `value !== null && value !== ""` of `flattenRequirements`:
only `null` and the empty string are rejected (objects and non-empty
strings pass). -/
def keepVal : JVal → Bool
  | JVal.null => false
  | JVal.str s => !(s == "")
  | JVal.obj _ => true

/-- One field step of the inner `process` helper of
`flattenRequirements`: a value passing `keepVal` is assigned into the
accumulator. -/
def processStep (f : List (String × JVal)) (p : String × JVal) : List (String × JVal) :=
  if keepVal p.2 then objSet f p.1 p.2 else f

/-- The inner `process` helper of `flattenRequirements`: walk the
fields of a requirement group, assigning every value that passes
`keepVal`. A group that is absent or `null` is skipped (the source
guard `if (!reqs) return`); requirement groups are JSON objects, so a
non-object group does not occur and is treated as empty. -/
def processGroup (flat : List (String × JVal)) (reqs : Option JVal) : List (String × JVal) :=
  match reqs with
  | some (JVal.obj fields) => fields.foldl processStep flat
  | _ => flat

/-- One step of the final `Object.keys(provided).forEach` loop of
`flattenRequirements`: copy a top-level key that is not one of the two
group names, is not already present, and whose value passes
`keepVal`. -/
def flattenTopStep (f : List (String × JVal)) (p : String × JVal) : List (String × JVal) :=
  if !(p.1 == "mandatoryRequirements" || p.1 == "optionalRequirements")
      && !(hasKey f p.1) then
    if keepVal p.2 then f ++ [(p.1, p.2)] else f
  else f

/-- Embedding of `flattenRequirements` (part_007, lines 213-232):
process the `mandatoryRequirements` and `optionalRequirements` groups,
then copy every other top-level key that is not already present and
whose value passes `keepVal`. A falsy `provided` yields the empty
mapping. -/
def flattenRequirements (provided : JVal) : List (String × JVal) :=
  match provided with
  | JVal.obj fields =>
      fields.foldl flattenTopStep
        (processGroup (processGroup [] (jsGet fields "mandatoryRequirements"))
          (jsGet fields "optionalRequirements"))
  | _ => []

/-- ASCII apostrophe, used to spell message texts of the source. -/
def apos : String := String.mk [Char.ofNat 39]

/-- The `WorkflowStep` union of types.ts. -/
inductive WorkflowStep where
  | greeting
  | initialInput
  | awaitMissingInfo
  | awaitOptional
  | awaitAdvanced
  | confirmAfterMissingInfo
  | showSummary
  | finalAnalysis
  | analysisError
  | default
deriving Repr, DecidableEq

/-- The `intent` union of `IntentClassificationResult` in types.ts. -/
inductive Intent where
  | greeting
  | knowledgeQuestion
  | productRequirements
  | workflow
  | chitchat
  | other
deriving Repr, DecidableEq

/-- The `IntentClassificationResult` of types.ts (`nextStep` may be
null, `resumeWorkflow` defaults to false when absent). -/
structure IntentClassificationResult where
  intent : Intent
  nextStep : Option WorkflowStep
  resumeWorkflow : Bool
deriving Repr, DecidableEq

/-- The `AgentResponse` of types.ts. In the source `nextStep` is a
nullable step-name string cast with `as any` when installed as the
current step; the embedding assumes the backend sends a valid step
name and types it directly. -/
structure AgentResponse where
  content : String
  nextStep : Option WorkflowStep
  maintainWorkflow : Option Bool
deriving Repr, DecidableEq

/-- Embedding of `classifyIntent` (api.ts, lines 434-449). The
transport outcome is the explicit argument: `Except.ok` is a 2xx
response body, `Except.error` any thrown transport failure. The
function itself is total: it absorbs the failure into the fallback
classification. -/
def classifyIntent (resp : Except String IntentClassificationResult) :
    IntentClassificationResult :=
  match resp with
  | Except.ok r => r
  | Except.error _ =>
      { intent := Intent.other, nextStep := none, resumeWorkflow := false }

/-- The fixed apologetic fallback text of `generateAgentResponse`. -/
def fallbackAgentContent : String :=
  "I" ++ apos ++ "m having trouble connecting to my brain right now. Please try again in a moment."

/-- Embedding of `generateAgentResponse` (api.ts, lines 454-481): on
success the three fields of the response body are returned (the source
omits `maintainWorkflow` in its fallback object, modelled as `none`);
on transport failure the fixed apology with a null next step. Total:
never propagates the failure. -/
def generateAgentResponse (resp : Except String AgentResponse) : AgentResponse :=
  match resp with
  | Except.ok r =>
      { content := r.content, nextStep := r.nextStep, maintainWorkflow := r.maintainWorkflow }
  | Except.error _ =>
      { content := fallbackAgentContent, nextStep := none, maintainWorkflow := none }

/-- Embedding of `normalizeUserInput` (api.ts, lines 74-76):
`input.replace` over the character class of backslash (92), underscore
(95) and hyphen (45) with the empty string, then `toLowerCase`
(ASCII-modelled). -/
def normalizeUserInput (input : String) : String :=
  String.mk
    ((input.data.filter
        (fun c => !(c.toNat == 92 || c.toNat == 95 || c.toNat == 45))).map
      Char.toLower)

/-- Request body of `validateRequirements` (api.ts, lines 233-258):
the normalized text, the repeat flag, and the product type only when
it is a truthy (non-empty) string. -/
structure ValidatePayload where
  user_input : String
  is_repeat : Bool
  product_type : Option String
deriving Repr, DecidableEq

/-- Embedding of the payload construction of `validateRequirements`. -/
def validateRequirementsPayload (userInput : String) (productType : Option String)
    (hasValidatedOnce : Bool) : ValidatePayload :=
  { user_input := normalizeUserInput userInput,
    is_repeat := hasValidatedOnce,
    product_type :=
      match productType with
      | some p => if p == "" then none else some p
      | none => none }

/-- The `user_input` field posted by `analyzeProducts` (api.ts, lines
265-276). -/
def analyzeProductsPayload (userInput : String) : String :=
  normalizeUserInput userInput

/-- The `full_input` field posted by `structureRequirements` (api.ts,
lines 324-333). -/
def structureRequirementsPayload (fullInput : String) : String :=
  normalizeUserInput fullInput

/-- The `ProductMatch` of types.ts (an entry of `vendorMatches`).
Scores are modelled as integers (they are only compared); the match
flag is an `Option Bool` because the runtime JSON may omit it, which
the view code defends against (`!!`, `=== true`, `??`). -/
structure ProductMatch where
  productName : String
  vendor : String
  matchScore : Int
  requirementsMatch : Option Bool
  reasoning : String
  limitations : String
deriving Repr, DecidableEq

/-- The `RankedProduct` of types.ts (an entry of `rankedProducts`). -/
structure RankedProduct where
  productType : String
  rank : Nat
  productName : String
  vendor : String
  overallScore : Int
  keyStrengths : String
  concerns : String
  requirementsMatch : Option Bool
deriving Repr, DecidableEq

/-- The `VendorAnalysis` of types.ts. -/
structure VendorAnalysis where
  vendorMatches : List ProductMatch
deriving Repr, DecidableEq

/-- The `overallRanking` component of `AnalysisResult` in types.ts
(`markdownAnalysis` is display text the view passes through). -/
structure OverallRanking where
  markdownAnalysis : String
  rankedProducts : List RankedProduct
deriving Repr, DecidableEq

/-- The `AnalysisResult` of types.ts. -/
structure AnalysisResult where
  productType : String
  vendorAnalysis : VendorAnalysis
  overallRanking : OverallRanking
deriving Repr, DecidableEq

/-- The string key used by the Results Ranking View to join ranked
products with vendor matches. -/
def matchKey (vendor productName : String) : String :=
  vendor ++ "-" ++ productName

/-- Embedding of `requirementsMatchMap` (part_006, lines 356-362): a
Map built with `set` over the vendor matches, each keyed by vendor and
product name, holding the truthiness of its match flag
(`!!match.requirementsMatch`, undefined giving false). `set` on an
existing key overwrites in place, so for a repeated key the last entry
wins. -/
def requirementsMatchMap (vms : List ProductMatch) : List (String × Bool) :=
  vms.foldl
    (fun m vm =>
      let k := matchKey vm.vendor vm.productName
      if (m.find? (fun p => p.1 == k)).isSome then
        m.map (fun p => if p.1 == k then (k, vm.requirementsMatch.getD false) else p)
      else m ++ [(k, vm.requirementsMatch.getD false)])
    []

/-- The `Map.get` of `requirementsMatchMap`: undefined when the key is
absent. -/
def mapGet (m : List (String × Bool)) (k : String) : Option Bool :=
  (m.find? (fun p => p.1 == k)).map Prod.snd

/-- The match flag the view resolves for a ranked product:
`requirementsMatchMap.get(key) ?? product.requirementsMatch`. -/
def resolvedMatch (vms : List ProductMatch) (p : RankedProduct) : Option Bool :=
  match mapGet (requirementsMatchMap vms) (matchKey p.vendor p.productName) with
  | some b => some b
  | none => p.requirementsMatch

/-- The `.map((product, index) => ...)` renumbering pass over the
filtered ranked products: position-based rank (index + 1, here with
`i` the index of the head) and the resolved match flag written back. -/
def renumber (vms : List ProductMatch) (i : Nat) :
    List RankedProduct → List RankedProduct
  | [] => []
  | p :: rest =>
      { p with rank := i + 1, requirementsMatch := resolvedMatch vms p }
        :: renumber vms (i + 1) rest

/-- Embedding of `filteredAnalysisResult` (part_006, lines 364-382)
for a non-null analysis result: vendor matches filtered to
`requirementsMatch === true`; ranked products filtered to a resolved
match flag of exactly `true`, then renumbered 1..N with the resolved
flag written back. -/
def filteredAnalysisResult (ar : AnalysisResult) : AnalysisResult :=
  { ar with
    vendorAnalysis :=
      { vendorMatches :=
          ar.vendorAnalysis.vendorMatches.filter
            (fun m => m.requirementsMatch == some true) },
    overallRanking :=
      { ar.overallRanking with
        rankedProducts :=
          renumber ar.vendorAnalysis.vendorMatches 0
            (ar.overallRanking.rankedProducts.filter
              (fun p => resolvedMatch ar.vendorAnalysis.vendorMatches p == some true)) } }

/-- The early-return branch decision of `RightPanel` (part_006, lines
386-416): the minimal docked panel is rendered exactly when
`!finalAnalysisResult?.vendorAnalysis?.vendorMatches?.length`, i.e.
when the analysis result is null or the filtered vendor-match list is
empty. -/
def rendersMinimalPanel (analysisResult : Option AnalysisResult) : Bool :=
  match analysisResult with
  | none => true
  | some ar => (filteredAnalysisResult ar).vendorAnalysis.vendorMatches.isEmpty

/-- The fields of a ranked product the filtering pass leaves alone
(everything except `rank` and `requirementsMatch`). -/
def productCore (p : RankedProduct) :
    String × String × String × Int × String × String :=
  (p.productType, p.productName, p.vendor, p.overallScore, p.keyStrengths, p.concerns)

/-- Author kind of a chat log entry (feedback entries are produced
elsewhere and never by the handlers modelled here). -/
inductive MsgType where
  | user
  | assistant
deriving Repr, DecidableEq

/-- A chat log entry as the handlers leave it: the streaming reveal of
an assistant message terminates with the full text as the entry's
content, so the log is modelled post-stream. -/
structure Msg where
  mtype : MsgType
  content : String
deriving Repr, DecidableEq

/-- The `ValidationResult` of types.ts. The `validationAlert` is used
by the workflow only through its `message` text, modelled directly;
`detectedSchema` is unused by the handlers. -/
structure ValidationResult where
  validationAlert : Option String
  isComplete : Bool
  providedRequirements : JVal
  productType : String
deriving Repr

/-- The `VendorParametersResult` of types.ts. -/
structure VendorParametersResult where
  vendor : String
  parameters : List String
  sourceUrl : String
deriving Repr, DecidableEq

/-- The `AdvancedParametersResult` of types.ts. -/
structure AdvancedParametersResult where
  productType : String
  vendorParameters : List VendorParametersResult
  uniqueParameters : List String
  totalVendorsSearched : Nat
  totalUniqueParameters : Nat
deriving Repr, DecidableEq

/-- The `AdvancedParametersSelection` of types.ts. -/
structure AdvancedParametersSelection where
  selectedParameters : List (String × String)
  explanation : String
  friendlyResponse : String
  totalSelected : Nat
deriving Repr, DecidableEq

/-- Session state of the `AIRecommender` component (part_007): the
`AppState` fields the workflow reads or writes, the separately held
collected data, advanced parameters and current step, and the loading
flag. Pure display state (input value, widths, docking, the
display-only `selectedAdvancedParams` tally) is not referenced by the
claims and is omitted. -/
structure SessionState where
  messages : List Msg
  currentStep : WorkflowStep
  collectedData : List (String × JVal)
  productType : Option String
  currentProductType : Option String
  requirementSchema : Option RequirementSchema
  validationResult : Option ValidationResult
  analysisResult : Option AnalysisResult
  advancedParameters : Option AdvancedParametersResult
  isLoading : Bool

/-- Responses of the external calls a single `handleSendMessage` turn
can make. `classifyIntent` and `generateAgentResponse` never throw
(see their embeddings above), so their fields are plain results — one
per call site of the active branch; the throwing operations carry
their transport outcome. -/
structure Oracle where
  intentResult : IntentClassificationResult
  agentResponse : AgentResponse
  advancedDisplayResponse : AgentResponse
  errorAgentResponse : AgentResponse
  summaryIntroResponse : AgentResponse
  analysisAgentResponse : AgentResponse
  validation : Except Unit ValidationResult
  schema : Except Unit RequirementSchema
  additionalProvided : Except Unit JVal
  discovered : Except Unit AdvancedParametersResult
  selection : Except Unit AdvancedParametersSelection
  structured : Except Unit String
  analysis : Except Unit AnalysisResult

/-- Append the user's message to the log (`addMessage` with type
"user"). -/
def addUserMsg (st : SessionState) (s : String) : SessionState :=
  { st with messages := st.messages ++ [⟨MsgType.user, s⟩] }

/-- Append an assistant message to the log — used both for
`streamAssistantMessage` (whose reveal ends with the full text) and
for the atomic `addMessage` of already-complete content. -/
def pushAssistant (st : SessionState) (s : String) : SessionState :=
  { st with messages := st.messages ++ [⟨MsgType.assistant, s⟩] }

/-- JavaScript `s.trim()`: strip whitespace from both ends. -/
def jsTrim (s : String) : String :=
  String.mk (((s.data.dropWhile Char.isWhitespace).reverse.dropWhile
    Char.isWhitespace).reverse)

/-- The `trimmedInput.toLowerCase().replace(\x2f\s\x2fg, "")`
normalization used by the keyword checks of the dispatch branches. -/
def normalizeCommandInput (s : String) : String :=
  String.mk ((s.data.map Char.toLower).filter (fun c => !c.isWhitespace))

/-- JavaScript `hay.includes(needle)`: substring containment. -/
def jsIncludes (hay needle : String) : Bool :=
  decide (needle.data <:+: hay.data)

/-- Case-insensitive whole-string match of the regular expression for
"no" or "n" (used against the untrimmed-of-spaces `trimmedInput`). -/
def matchesNoRegex (s : String) : Bool :=
  let l := String.mk (s.data.map Char.toLower)
  l == "no" || l == "n"

/-- Case-insensitive whole-string match for "yes", "y" or "skip". -/
def matchesYesSkipRegex (s : String) : Bool :=
  let l := String.mk (s.data.map Char.toLower)
  l == "yes" || l == "y" || l == "skip"

/-- Embedding of `performAnalysis` (part_007, lines 247-280). The
composed request string (product type plus the collected data) is
consumed only by the backend, whose response is the oracle input
`o.analysis`. Returns the state after the call together with the
success-toast count, `none` when no toast fires. -/
def performAnalysis (st : SessionState) (o : Oracle) : SessionState × Option Nat :=
  let st := { st with isLoading := true }
  match o.analysis with
  | Except.ok analysis =>
      let threshold : Int := 80
      let highScoringProducts :=
        analysis.overallRanking.rankedProducts.filter
          (fun p => decide (p.overallScore ≥ threshold) && (p.requirementsMatch == some true))
      let count := highScoringProducts.length
      let st := pushAssistant st o.analysisAgentResponse.content
      let st :=
        { st with analysisResult := some analysis, isLoading := false,
                  currentStep := WorkflowStep.initialInput }
      (st, some count)
  | Except.error _ =>
      let st := pushAssistant st o.analysisAgentResponse.content
      ({ st with isLoading := false, currentStep := WorkflowStep.analysisError }, none)

/-- Embedding of `handleShowSummaryAndProceed` (part_007, lines
282-311): structure the collected requirements, stream an intro,
append the summary, then run the analysis; on a structuring failure
stream the error response and hold at `showSummary`. -/
def handleShowSummaryAndProceed (st : SessionState) (o : Oracle) :
    SessionState × Option Nat :=
  let st := { st with isLoading := true }
  match o.structured with
  | Except.ok summaryContent =>
      let st := pushAssistant st o.summaryIntroResponse.content
      let st := pushAssistant st ("\n\n" ++ summaryContent ++ "\n\n")
      let st := { st with isLoading := false }
      performAnalysis st o
  | Except.error _ =>
      let st := pushAssistant st o.errorAgentResponse.content
      ({ st with isLoading := false, currentStep := WorkflowStep.showSummary }, none)

/-- The target-step computation of `handleSendMessage` (part_007,
lines 346-353): the classifier's suggestion, defaulting to the current
step, overridden to `initialInput` whenever the intent is
`productRequirements`. -/
def computeTargetStep (intentResult : IntentClassificationResult)
    (currentStep : WorkflowStep) : WorkflowStep :=
  let targetStep := intentResult.nextStep.getD currentStep
  if intentResult.intent = Intent.productRequirements then WorkflowStep.initialInput
  else targetStep

/-- The `case "initialInput"` branch of the dispatch (part_007, lines
378-428). -/
def dispatchInitialInput (st : SessionState) (o : Oracle) : SessionState :=
  match o.validation with
  | Except.error _ =>
      let st := pushAssistant st o.errorAgentResponse.content
      { st with currentStep := WorkflowStep.initialInput }
  | Except.ok validation =>
      if validation.productType == "" then
        let st := pushAssistant st o.agentResponse.content
        { st with currentStep := WorkflowStep.initialInput }
      else
        match o.schema with
        | Except.error _ =>
            let st := pushAssistant st o.errorAgentResponse.content
            { st with currentStep := WorkflowStep.initialInput }
        | Except.ok schema =>
            let flatRequirements := flattenRequirements validation.providedRequirements
            let mergedData := mergeRequirementsWithSchema flatRequirements schema
            let st :=
              { st with collectedData := mergedData,
                        requirementSchema := some schema,
                        productType := some validation.productType,
                        currentProductType := some validation.productType,
                        validationResult := some validation }
            match validation.validationAlert with
            | some alertMsg =>
                let st := pushAssistant st alertMsg
                { st with currentStep := WorkflowStep.awaitMissingInfo }
            | none =>
                let st := pushAssistant st o.agentResponse.content
                { st with currentStep := o.agentResponse.nextStep.getD WorkflowStep.awaitOptional }

/-- The parameter-discovery sequence shared by both sub-paths of the
`awaitOptional` branch: discover, cache, then stream the formatted
display; a throw falls to the branch catch handler, which streams an
error response and resets the step to `awaitOptional`. -/
def awaitOptionalDiscover (st : SessionState) (o : Oracle) : SessionState :=
  match o.discovered with
  | Except.ok parametersResult =>
      let st :=
        { st with advancedParameters := some parametersResult,
                  currentStep := WorkflowStep.awaitAdvanced }
      let st := pushAssistant st o.advancedDisplayResponse.content
      { st with isLoading := false }
  | Except.error _ =>
      let st := pushAssistant st o.errorAgentResponse.content
      { st with currentStep := WorkflowStep.awaitOptional, isLoading := false }

/-- The `case "awaitOptional"` branch of the dispatch (part_007, lines
430-511). -/
def dispatchAwaitOptional (st : SessionState) (trimmedInput : String) (o : Oracle) :
    SessionState :=
  let normalizedInput := normalizeCommandInput trimmedInput
  if normalizedInput == "no" || normalizedInput == "n"
      || jsIncludes normalizedInput "proceed" || jsIncludes normalizedInput "ready" then
    let st := pushAssistant st o.agentResponse.content
    if o.agentResponse.nextStep = some WorkflowStep.awaitAdvanced then
      awaitOptionalDiscover st o
    else
      { st with isLoading := false }
  else
    if !(normalizedInput == "no") && !(matchesNoRegex trimmedInput) then
      match o.additionalProvided, st.requirementSchema with
      | Except.ok providedRequirements, some schema =>
          let newFlatRequirements := flattenRequirements providedRequirements
          let updatedData :=
            mergeRequirementsWithSchema (spreadMerge st.collectedData newFlatRequirements)
              schema
          let st := { st with collectedData := updatedData }
          let st := pushAssistant st o.agentResponse.content
          if o.agentResponse.nextStep = some WorkflowStep.awaitAdvanced then
            awaitOptionalDiscover st o
          else
            match o.agentResponse.nextStep with
            | some s => { st with currentStep := s, isLoading := false }
            | none => { st with isLoading := false }
      | _, _ =>
          let st := pushAssistant st o.errorAgentResponse.content
          { st with currentStep := WorkflowStep.awaitOptional, isLoading := false }
    else
      { st with isLoading := false }

/-- The `case "awaitAdvanced"` branch of the dispatch (part_007, lines
513-596). -/
def dispatchAwaitAdvanced (st : SessionState) (trimmedInput : String) (o : Oracle) :
    SessionState × Option Nat :=
  let normalizedInput := normalizeCommandInput trimmedInput
  if normalizedInput == "no" || normalizedInput == "n"
      || jsIncludes normalizedInput "skip" || jsIncludes normalizedInput "done" then
    let st := { st with currentStep := WorkflowStep.showSummary }
    match o.structured with
    | Except.ok summaryContent =>
        let st := pushAssistant st ("Here" ++ apos ++ "s a summary of your requirements:")
        let st := pushAssistant st ("\n\n" ++ summaryContent ++ "\n\n")
        let st := pushAssistant st "Starting product analysis..."
        let st := { st with isLoading := false }
        performAnalysis st o
    | Except.error _ =>
        let st := pushAssistant st "Error generating summary. Please try again."
        ({ st with isLoading := false, currentStep := WorkflowStep.showSummary }, none)
  else
    match st.advancedParameters with
    | some _ =>
        match o.selection with
        | Except.ok selectionResult =>
            let selectedAsJVal :=
              selectionResult.selectedParameters.map (fun p => (p.1, JVal.str p.2))
            let st :=
              if selectionResult.totalSelected > 0 then
                { st with collectedData := spreadMerge st.collectedData selectedAsJVal }
              else st
            let st := pushAssistant st o.agentResponse.content
            if o.agentResponse.nextStep = some WorkflowStep.showSummary then
              let st := { st with currentStep := WorkflowStep.showSummary }
              let r := handleShowSummaryAndProceed st o
              ({ r.1 with isLoading := false }, r.2)
            else
              ({ st with isLoading := false }, none)
        | Except.error _ =>
            let st := pushAssistant st o.errorAgentResponse.content
            ({ st with isLoading := false }, none)
    | none =>
        let st := pushAssistant st o.agentResponse.content
        ({ st with isLoading := false }, none)

/-- The `default` fallback of the dispatch switch (part_007, lines
627-685), covering `awaitMissingInfo`, `confirmAfterMissingInfo` and
the generic conversation case. -/
def dispatchDefault (st : SessionState) (trimmedInput : String) (o : Oracle) :
    SessionState :=
  if st.currentStep = WorkflowStep.awaitMissingInfo then
    if matchesYesSkipRegex trimmedInput then
      let st := pushAssistant st o.agentResponse.content
      { st with currentStep := WorkflowStep.awaitOptional, isLoading := false }
    else
      match o.validation, st.requirementSchema with
      | Except.ok newValidation, some schema =>
          let newFlatRequirements := flattenRequirements newValidation.providedRequirements
          let updatedData :=
            mergeRequirementsWithSchema (spreadMerge st.collectedData newFlatRequirements)
              schema
          let st :=
            { st with collectedData := updatedData,
                      validationResult := some newValidation }
          match newValidation.validationAlert with
          | some alertMsg =>
              let st := pushAssistant st alertMsg
              { st with currentStep := WorkflowStep.awaitMissingInfo, isLoading := false }
          | none =>
              let st := pushAssistant st o.agentResponse.content
              { st with
                  currentStep := o.agentResponse.nextStep.getD WorkflowStep.awaitOptional,
                  isLoading := false }
      | _, _ =>
          let st := pushAssistant st o.errorAgentResponse.content
          { st with isLoading := false }
  else
    let st := pushAssistant st o.agentResponse.content
    { st with isLoading := false }

/-- Embedding of `handleSendMessage` (part_007, lines 314-697): trim
and drop blank input, append the user message, classify, answer
knowledge questions in place, otherwise compute the target step (see
`computeTargetStep`), take the direct summary shortcut when
applicable, and dispatch. Returns the resulting state and the
success-toast count when an analysis completed. -/
def handleSendMessage (st : SessionState) (userInput : String) (o : Oracle) :
    SessionState × Option Nat :=
  let trimmedInput := jsTrim userInput
  if trimmedInput == "" then (st, none)
  else
    let st := addUserMsg st trimmedInput
    let st := { st with isLoading := true }
    let intentResult := o.intentResult
    if intentResult.intent = Intent.knowledgeQuestion then
      let st := pushAssistant st o.agentResponse.content
      ({ st with isLoading := false }, none)
    else
      let targetStep := computeTargetStep intentResult st.currentStep
      if targetStep = WorkflowStep.showSummary ∧
          st.currentStep = WorkflowStep.awaitAdvanced then
        let st := { st with currentStep := WorkflowStep.showSummary }
        let r := handleShowSummaryAndProceed st o
        ({ r.1 with isLoading := false }, r.2)
      else
        match targetStep with
        | WorkflowStep.greeting =>
            let st := pushAssistant st o.agentResponse.content
            ({ st with currentStep := WorkflowStep.initialInput, isLoading := false }, none)
        | WorkflowStep.initialInput =>
            ({ dispatchInitialInput st o with isLoading := false }, none)
        | WorkflowStep.awaitOptional =>
            ({ dispatchAwaitOptional st trimmedInput o with isLoading := false }, none)
        | WorkflowStep.awaitAdvanced =>
            let r := dispatchAwaitAdvanced st trimmedInput o
            ({ r.1 with isLoading := false }, r.2)
        | WorkflowStep.showSummary =>
            let normalizedInput := normalizeCommandInput trimmedInput
            if ["yes", "proceed", "continue", "run", "analyze", "ok"].any
                (fun cmd => jsIncludes normalizedInput cmd) then
              let r := performAnalysis st o
              ({ r.1 with isLoading := false }, r.2)
            else
              ({ st with isLoading := false }, none)
        | WorkflowStep.finalAnalysis =>
            let normalizedInput := normalizeCommandInput trimmedInput
            if ["rerun", "run", "runagain"].any
                (fun cmd => jsIncludes normalizedInput cmd) then
              let r := performAnalysis st o
              ({ r.1 with isLoading := false }, r.2)
            else
              ({ st with isLoading := false }, none)
        | WorkflowStep.analysisError =>
            let normalizedInput := normalizeCommandInput trimmedInput
            if ["rerun", "run", "runagain"].contains normalizedInput then
              let r := performAnalysis st o
              ({ r.1 with isLoading := false }, r.2)
            else
              let st := pushAssistant st o.agentResponse.content
              ({ st with isLoading := false }, none)
        | _ =>
            ({ dispatchDefault st trimmedInput o with isLoading := false }, none)

/-- Whether `handleSend` of ChatInterface.tsx (lines 73-94) reaches
`onSendMessage`: blank input aborts with a toast, a pending request
(`isLoading`) aborts silently; the `isStreaming` prop is received but
not consulted here. -/
def handleSendFires (inputValue : String) (isLoading isStreaming : Bool) : Bool :=
  if jsTrim inputValue == "" then false
  else if isLoading then false
  else true

/-- The `disabled` attribute of the Send button (ChatInterface.tsx,
lines 280-297): `!inputValue.trim() || isLoading || currentStep ===
"finalAnalysis"`. -/
def sendButtonDisabled (inputValue : String) (isLoading : Bool)
    (currentStep : WorkflowStep) : Bool :=
  jsTrim inputValue == "" || isLoading || currentStep == WorkflowStep.finalAnalysis

/-- The `disabled` attribute of the text area (ChatInterface.tsx, line
278): only the `finalAnalysis` step disables typing; the Enter key
otherwise reaches `handleSend`. -/
def textareaDisabled (currentStep : WorkflowStep) : Bool :=
  currentStep == WorkflowStep.finalAnalysis

/-- Whether a user turn can be submitted through the Enter key: the
text area accepts the keystroke and `handleSend` fires. -/
def canSubmitViaEnter (inputValue : String) (isLoading isStreaming : Bool)
    (currentStep : WorkflowStep) : Bool :=
  !(textareaDisabled currentStep) && handleSendFires inputValue isLoading isStreaming

/-! ### Concrete instances used by witnesses and counterexamples -/

/-- Partial data of the spec's schema-merge example. -/
def providedEx : List (String × JVal) :=
  [("pressureRange", JVal.str "0-100 bar")]

/-- Schema of the spec's schema-merge example. -/
def schemaEx : RequirementSchema :=
  { mandatoryRequirements :=
      some [("pressureRange", JVal.str "string"), ("outputSignal", JVal.str "string")],
    optionalRequirements := some [("accuracy", JVal.str "string")] }

/-- An input on which flattening is not idempotent: a mandatory group
that itself contains a field named `mandatoryRequirements`. -/
def nestedEx : JVal :=
  JVal.obj
    [("mandatoryRequirements",
      JVal.obj [("mandatoryRequirements", JVal.obj [("a", JVal.str "1")])])]

/-- An already-flat mapping with no group keys and no null or empty
values. -/
def flatEx : List (String × JVal) :=
  [("pressureRange", JVal.str "0-100 bar"), ("outputSignal", JVal.str "4-20mA")]

/-- A nested input whose flattened form has no group-named keys. -/
def benignEx : JVal :=
  JVal.obj
    [("mandatoryRequirements", JVal.obj [("accuracy", JVal.str "0.1")]),
     ("extra", JVal.str "v")]

/-- A vendor match whose requirements match. -/
def mAcme : ProductMatch :=
  { productName := "P1", vendor := "Acme", matchScore := 92,
    requirementsMatch := some true, reasoning := "", limitations := "" }

/-- A vendor match whose requirements do not match. -/
def mBolt : ProductMatch :=
  { productName := "P2", vendor := "Bolt", matchScore := 70,
    requirementsMatch := some false, reasoning := "", limitations := "" }

/-- Ranked product joined to the matching vendor entry. -/
def p1 : RankedProduct :=
  { productType := "pressure transmitter", rank := 1, productName := "P1",
    vendor := "Acme", overallScore := 91, keyStrengths := "", concerns := "",
    requirementsMatch := some true }

/-- Ranked product whose own flag is true but whose vendor entry says
false — the map wins and it is filtered out. -/
def p2 : RankedProduct :=
  { productType := "pressure transmitter", rank := 2, productName := "P2",
    vendor := "Bolt", overallScore := 88, keyStrengths := "", concerns := "",
    requirementsMatch := some true }

/-- Ranked product with no vendor entry: the view falls back to its
own flag. -/
def pCory : RankedProduct :=
  { productType := "pressure transmitter", rank := 3, productName := "P3",
    vendor := "Cory", overallScore := 85, keyStrengths := "", concerns := "",
    requirementsMatch := some true }

/-- A ranked product over the toast threshold whose requirements do
not match. -/
def pHighNoMatch : RankedProduct :=
  { productType := "pressure transmitter", rank := 1, productName := "P9",
    vendor := "Dyne", overallScore := 90, keyStrengths := "", concerns := "",
    requirementsMatch := some false }

/-- Analysis result exercising every filter case of the ranking
view. -/
def arEx : AnalysisResult :=
  { productType := "pressure transmitter",
    vendorAnalysis := { vendorMatches := [mAcme, mBolt] },
    overallRanking := { markdownAnalysis := "", rankedProducts := [p1, p2, pCory] } }

/-- Analysis result with an empty vendor-match list but a non-empty
filtered ranking. -/
def arNoVendor : AnalysisResult :=
  { productType := "pressure transmitter",
    vendorAnalysis := { vendorMatches := [] },
    overallRanking := { markdownAnalysis := "", rankedProducts := [pCory] } }

/-- Analysis result whose only product scores 90 but does not match
requirements. -/
def arHighNoMatch : AnalysisResult :=
  { productType := "pressure transmitter",
    vendorAnalysis := { vendorMatches := [] },
    overallRanking := { markdownAnalysis := "", rankedProducts := [pHighNoMatch] } }

/-- An initial session state. -/
def stInit : SessionState :=
  { messages := [], currentStep := WorkflowStep.greeting, collectedData := [],
    productType := none, currentProductType := none, requirementSchema := none,
    validationResult := none, analysisResult := none, advancedParameters := none,
    isLoading := false }

/-- A neutral agent response. -/
def agentOk : AgentResponse :=
  { content := "ok", nextStep := none, maintainWorkflow := none }

/-- An oracle whose throwing calls all fail and whose classifier says
`other`. -/
def oracleBase : Oracle :=
  { intentResult := { intent := Intent.other, nextStep := none, resumeWorkflow := false },
    agentResponse := agentOk, advancedDisplayResponse := agentOk,
    errorAgentResponse := agentOk, summaryIntroResponse := agentOk,
    analysisAgentResponse := agentOk,
    validation := Except.error (), schema := Except.error (),
    additionalProvided := Except.error (), discovered := Except.error (),
    selection := Except.error (), structured := Except.error (),
    analysis := Except.error () }

/-! ### Helper lemmas -/

theorem toNat_toLower (c : Char) :
    (Char.toLower c).toNat =
      if 65 ≤ c.toNat ∧ c.toNat ≤ 90 then c.toNat + 32 else c.toNat := by
  by_cases h : 65 ≤ c.toNat ∧ c.toNat ≤ 90
  · have hv : Nat.isValidChar (c.toNat + 32) := Or.inl (by omega)
    rw [if_pos h]
    have hlow : Char.toLower c = Char.ofNat (c.toNat + 32) := by
      unfold Char.toLower
      exact if_pos h
    rw [hlow]
    unfold Char.ofNat
    rw [dif_pos hv]
    simp [Char.ofNatAux, Char.toNat, UInt32.toNat]
  · rw [if_neg h]
    have hlow : Char.toLower c = c := by
      unfold Char.toLower
      exact if_neg h
    rw [hlow]

/-! ### C2 — intent override -/

/-- C2: for every current workflow step and every classification whose
intent is `productRequirements`, the target step `handleSendMessage`
dispatches on is `initialInput`, whatever `nextStep` the classifier
suggested. -/
theorem intent_override_targets_initialInput
    (intentResult : IntentClassificationResult) (currentStep : WorkflowStep)
    (h : intentResult.intent = Intent.productRequirements) :
    computeTargetStep intentResult currentStep = WorkflowStep.initialInput := by
  simp [computeTargetStep, h]

/-- Witness for C2 at the spec's own example: current step
`awaitAdvanced`, classifier suggesting `showSummary`. -/
theorem intent_override_targets_initialInput_witness :
    computeTargetStep
      { intent := Intent.productRequirements,
        nextStep := some WorkflowStep.showSummary, resumeWorkflow := false }
      WorkflowStep.awaitAdvanced = WorkflowStep.initialInput :=
  intent_override_targets_initialInput _ _ rfl

/-! ### C5 — degradation of the two no-throw calls -/

/-- C5 (corrected part): the success path of `generateAgentResponse`
passes the backend content through without a non-emptiness check, so
an outcome with empty content exists — against the claim that content
is non-empty on every outcome. -/
theorem agent_content_empty_counterexample :
    (generateAgentResponse
        (Except.ok { content := "", nextStep := none, maintainWorkflow := none })).content
      = "" := rfl

/-- C5 (amended): both calls are total (they absorb transport failure
rather than rethrow); on failure `classifyIntent` yields exactly the
`other`/null/false fallback, and `generateAgentResponse` the fixed
non-empty apology with a null next step; on success the agent content
is the backend content verbatim. -/
theorem degradation_fallback_shapes (e1 e2 : String) (r : AgentResponse) :
    classifyIntent (Except.error e1) =
      { intent := Intent.other, nextStep := none, resumeWorkflow := false } ∧
    generateAgentResponse (Except.error e2) =
      { content := fallbackAgentContent, nextStep := none, maintainWorkflow := none } ∧
    (fallbackAgentContent == "") = false ∧
    (generateAgentResponse (Except.ok r)).content = r.content :=
  ⟨rfl, rfl, by decide, rfl⟩

/-! ### C7 — input gating -/

/-- C7 (counterexample): with a stream active (`isStreaming = true`)
but no request outstanding (`isLoading = false`), a non-blank input
can still be submitted — the gate never consults `isStreaming`,
against the claim that a stream by itself disables submission. -/
theorem streaming_gate_counterexample :
    canSubmitViaEnter "hi" false true WorkflowStep.greeting = true ∧
    sendButtonDisabled "hi" false WorkflowStep.greeting = false := by
  decide

/-- C7 (amended): whenever a request is outstanding
(`isLoading = true`) input submission is disabled — the Send button is
disabled and `handleSend` refuses to fire through the Enter key —
whatever the value of the unconsulted `isStreaming` flag. -/
theorem loading_gate_disables_submission (inputValue : String) (isStreaming : Bool)
    (currentStep : WorkflowStep) :
    canSubmitViaEnter inputValue true isStreaming currentStep = false ∧
    sendButtonDisabled inputValue true currentStep = true := by
  refine ⟨?_, ?_⟩
  · simp [canSubmitViaEnter, handleSendFires]
  · simp [sendButtonDisabled]

/-! ### C9 — input normalization before submission -/

/-- C9: the three operations post exactly the `normalizeUserInput` of
the user text; the normalized text contains no backslash (92),
underscore (95) or hyphen (45) and no ASCII uppercase letter; and the
claim's example holds: "4-20mA" is sent as "420ma". -/
theorem normalized_payloads (input : String) (productType : Option String) (once : Bool) :
    (validateRequirementsPayload input productType once).user_input
        = normalizeUserInput input ∧
    analyzeProductsPayload input = normalizeUserInput input ∧
    structureRequirementsPayload input = normalizeUserInput input ∧
    (∀ c ∈ (normalizeUserInput input).data,
        c.toNat ≠ 92 ∧ c.toNat ≠ 95 ∧ c.toNat ≠ 45 ∧ ¬(65 ≤ c.toNat ∧ c.toNat ≤ 90)) ∧
    normalizeUserInput "4-20mA" = "420ma" := by
  refine ⟨rfl, rfl, rfl, ?_, by decide⟩
  intro c hc
  simp only [normalizeUserInput, String.data] at hc
  obtain ⟨c', hc', rfl⟩ := List.mem_map.mp hc
  obtain ⟨-, hp⟩ := List.mem_filter.mp hc'
  simp only [Bool.not_eq_true', Bool.or_eq_false_iff, beq_eq_false_iff_ne, ne_eq] at hp
  rw [toNat_toLower]
  obtain ⟨⟨h92, h95⟩, h45⟩ := hp
  by_cases h : 65 ≤ c'.toNat ∧ c'.toNat ≤ 90
  · rw [if_pos h]
    refine ⟨by omega, by omega, by omega, by omega⟩
  · rw [if_neg h]
    refine ⟨h92, h95, h45, h⟩

/-- Witness for C9: the membership hypothesis of the
character-exclusion conjunct discharged at the character "4" of the
normalized example input. -/
theorem normalized_payloads_witness :
    normalizeUserInput "4-20mA" = "420ma" ∧ Char.toNat (Char.ofNat 52) ≠ 92 :=
  ⟨(normalized_payloads "4-20mA" none false).2.2.2.2,
   (((normalized_payloads "4-20mA" none false).2.2.2.1 (Char.ofNat 52)) (by decide)).1⟩

/-! ### C10 — minimal docked panel decision -/

/-- C10: the Results Ranking View renders the minimal docked panel
exactly when the filtered vendor-match list is empty: with no vendor
match whose flag is true the minimal panel is rendered (whatever the
filtered ranking holds), and with at least one such match the full
view is rendered. -/
theorem rightPanel_minimal_docking (ar : AnalysisResult) :
    ((∀ m ∈ ar.vendorAnalysis.vendorMatches, m.requirementsMatch ≠ some true) →
      rendersMinimalPanel (some ar) = true) ∧
    ((∃ m ∈ ar.vendorAnalysis.vendorMatches, m.requirementsMatch = some true) →
      rendersMinimalPanel (some ar) = false) := by
  constructor
  · intro h
    simp only [rendersMinimalPanel, filteredAnalysisResult, List.isEmpty_iff,
      List.filter_eq_nil_iff]
    intro m hm
    simp [h m hm]
  · rintro ⟨m, hm, hmt⟩
    simp only [rendersMinimalPanel, filteredAnalysisResult]
    rcases hfilter : (ar.vendorAnalysis.vendorMatches.filter
        (fun m => m.requirementsMatch == some true)) with _ | ⟨x, xs⟩
    · exact absurd (List.filter_eq_nil_iff.mp hfilter m hm) (by simp [hmt])
    · simp [hfilter]

/-- Witness for C10: with an empty vendor-match list the minimal panel
is rendered even though the filtered ranking is non-empty, and with a
matching vendor entry the full view is rendered. -/
theorem rightPanel_minimal_docking_witness :
    rendersMinimalPanel (some arNoVendor) = true ∧
    (filteredAnalysisResult arNoVendor).overallRanking.rankedProducts ≠ [] ∧
    rendersMinimalPanel (some arEx) = false :=
  ⟨(rightPanel_minimal_docking arNoVendor).1 (by decide),
   by decide,
   (rightPanel_minimal_docking arEx).2 ⟨mAcme, by decide, by decide⟩⟩

/-! ### C3 — ranking filter invariant -/

theorem renumber_length (vms : List ProductMatch) (i : Nat) (l : List RankedProduct) :
    (renumber vms i l).length = l.length := by
  induction l generalizing i with
  | nil => rfl
  | cons p rest ih => simp [renumber, ih]

theorem renumber_map_rank (vms : List ProductMatch) (i : Nat) (l : List RankedProduct) :
    (renumber vms i l).map (fun p => p.rank) = List.range' (i + 1) l.length := by
  induction l generalizing i with
  | nil => simp [renumber]
  | cons p rest ih =>
      simp only [renumber, List.map_cons, List.length_cons, List.range'_succ, ih]

theorem renumber_match (vms : List ProductMatch) (i : Nat) (l : List RankedProduct)
    (h : ∀ p ∈ l, resolvedMatch vms p = some true) :
    ∀ q ∈ renumber vms i l, q.requirementsMatch = some true := by
  induction l generalizing i with
  | nil =>
      intro q hq
      simp [renumber] at hq
  | cons p rest ih =>
      intro q hq
      simp only [renumber, List.mem_cons] at hq
      rcases hq with rfl | hq
      · exact h p (List.mem_cons_self p rest)
      · exact ih (i + 1) (fun r hr => h r (List.mem_cons_of_mem _ hr)) q hq

theorem renumber_map_core (vms : List ProductMatch) (i : Nat) (l : List RankedProduct) :
    (renumber vms i l).map productCore = l.map productCore := by
  induction l generalizing i with
  | nil => rfl
  | cons p rest ih => simp [renumber, productCore, ih]

/-- C3: after the Results Ranking View's filtering, every retained
vendor match and every retained ranked product has a true match flag,
the retained ranks are the contiguous sequence 1..N (position-based,
the backend rank discarded), and the retained products are exactly the
entries whose resolved match flag is true, in their original relative
order. -/
theorem ranking_filter_invariant (ar : AnalysisResult) :
    (∀ m ∈ (filteredAnalysisResult ar).vendorAnalysis.vendorMatches,
        m.requirementsMatch = some true) ∧
    (∀ p ∈ (filteredAnalysisResult ar).overallRanking.rankedProducts,
        p.requirementsMatch = some true) ∧
    (filteredAnalysisResult ar).overallRanking.rankedProducts.map (fun p => p.rank)
        = List.range' 1 (filteredAnalysisResult ar).overallRanking.rankedProducts.length ∧
    (filteredAnalysisResult ar).overallRanking.rankedProducts.map productCore
        = (ar.overallRanking.rankedProducts.filter
            (fun p => resolvedMatch ar.vendorAnalysis.vendorMatches p == some true)).map
          productCore := by
  refine ⟨?_, ?_, ?_, ?_⟩
  · intro m hm
    simp only [filteredAnalysisResult] at hm
    exact eq_of_beq (List.mem_filter.mp hm).2
  · intro p hp
    simp only [filteredAnalysisResult] at hp
    exact renumber_match _ _ _
      (fun q hq => eq_of_beq (List.mem_filter.mp hq).2) p hp
  · simp only [filteredAnalysisResult]
    rw [renumber_map_rank, renumber_length]
  · simp only [filteredAnalysisResult]
    exact renumber_map_core _ _ _

/-- Witness for C3: a retained vendor match of the concrete analysis
result has a true flag, and the retained ranks are contiguous. -/
theorem ranking_filter_invariant_witness :
    mAcme.requirementsMatch = some true ∧
    (filteredAnalysisResult arEx).overallRanking.rankedProducts.map (fun p => p.rank)
      = List.range' 1 (filteredAnalysisResult arEx).overallRanking.rankedProducts.length :=
  ⟨(ranking_filter_invariant arEx).1 mAcme (by decide),
   (ranking_filter_invariant arEx).2.2.1⟩

/-! ### C1 — schema merge completeness -/

theorem hasKey_false (m : List (String × JVal)) (k : String) :
    hasKey m k = false ↔ jsGet m k = none := by
  unfold hasKey
  cases jsGet m k <;> simp

theorem jsGet_append (m₁ m₂ : List (String × JVal)) (k : String) :
    jsGet (m₁ ++ m₂) k = (jsGet m₁ k).or (jsGet m₂ k) := by
  unfold jsGet
  rw [List.find?_append]
  cases hf : List.find? (fun p => p.1 == k) m₁ <;> simp [Option.or]

theorem jsGet_singleton (key k : String) (v : JVal) :
    jsGet [(key, v)] k = if key == k then some v else none := by
  unfold jsGet
  cases hkk : (key == k) <;> simp [List.find?, hkk]

theorem mergeFold_preserves (keys : List String) (acc : List (String × JVal))
    (k : String) (v : JVal) (h : jsGet acc k = some v) :
    jsGet (keys.foldl mergeStep acc) k = some v := by
  induction keys generalizing acc with
  | nil => exact h
  | cons key rest ih =>
      simp only [List.foldl_cons]
      apply ih
      unfold mergeStep
      by_cases hk : hasKey acc key = true
      · simpa [hk] using h
      · simp only [Bool.not_eq_true] at hk
        simp only [hk, Bool.false_eq_true, if_false]
        rw [jsGet_append, h]
        rfl

theorem mergeFold_fills (keys : List String) (acc : List (String × JVal)) (k : String)
    (hk : k ∈ keys) (h : hasKey acc k = false) :
    jsGet (keys.foldl mergeStep acc) k = some (JVal.str "") := by
  induction keys generalizing acc with
  | nil => cases hk
  | cons key rest ih =>
      simp only [List.foldl_cons]
      by_cases hkey : k = key
      · subst hkey
        unfold mergeStep
        simp only [h, Bool.false_eq_true, if_false]
        apply mergeFold_preserves
        rw [jsGet_append, (hasKey_false acc k).mp h, jsGet_singleton]
        simp [Option.or]
      · have hmem : k ∈ rest := by
          rcases List.mem_cons.mp hk with h' | h'
          · exact absurd h' hkey
          · exact h'
        refine ih _ hmem ?_
        unfold mergeStep
        by_cases hacc : hasKey acc key = true
        · simpa [hacc] using h
        · simp only [Bool.not_eq_true] at hacc
          simp only [hacc, Bool.false_eq_true, if_false]
          rw [hasKey_false, jsGet_append, (hasKey_false acc k).mp h, jsGet_singleton]
          have : (key == k) = false := by
            simp [beq_eq_false_iff_ne]
            exact fun h' => hkey h'.symm
          simp [this, Option.or]

theorem mergeFold_hasKey (keys : List String) (acc : List (String × JVal)) (k : String)
    (hk : k ∈ keys) : hasKey (keys.foldl mergeStep acc) k = true := by
  by_cases h : hasKey acc k = true
  · obtain ⟨v, hv⟩ := Option.isSome_iff_exists.mp h
    unfold hasKey
    rw [mergeFold_preserves keys acc k v hv]
    rfl
  · simp only [Bool.not_eq_true] at h
    unfold hasKey
    rw [mergeFold_fills keys acc k hk h]
    rfl

/-- C1: `mergeRequirementsWithSchema` is a total function (missing
schema groups contribute no keys); its output has every schema key,
every key of the partial data keeps exactly its value, and every
schema key absent from the data is bound to the empty string. -/
theorem merge_requirements_completeness (provided : List (String × JVal))
    (schema : RequirementSchema) :
    (∀ k ∈ schemaKeys schema,
        hasKey (mergeRequirementsWithSchema provided schema) k = true) ∧
    (∀ k v, jsGet provided k = some v →
        jsGet (mergeRequirementsWithSchema provided schema) k = some v) ∧
    (∀ k ∈ schemaKeys schema, hasKey provided k = false →
        jsGet (mergeRequirementsWithSchema provided schema) k = some (JVal.str "")) :=
  ⟨fun k hk => mergeFold_hasKey _ _ _ hk,
   fun _ v hv => mergeFold_preserves _ _ _ v hv,
   fun k hk h => mergeFold_fills _ _ _ hk h⟩

/-- Witness for C1 at the spec's example: data holding only
`pressureRange`, a schema with mandatory `pressureRange` and
`outputSignal` and optional `accuracy`. -/
theorem merge_requirements_completeness_witness :
    hasKey (mergeRequirementsWithSchema providedEx schemaEx) "outputSignal" = true ∧
    jsGet (mergeRequirementsWithSchema providedEx schemaEx) "pressureRange"
      = some (JVal.str "0-100 bar") ∧
    jsGet (mergeRequirementsWithSchema providedEx schemaEx) "accuracy"
      = some (JVal.str "") :=
  ⟨(merge_requirements_completeness providedEx schemaEx).1 "outputSignal" (by decide),
   (merge_requirements_completeness providedEx schemaEx).2.1 "pressureRange"
     (JVal.str "0-100 bar") rfl,
   (merge_requirements_completeness providedEx schemaEx).2.2 "accuracy" (by decide) rfl⟩

/-! ### C8 — flatten idempotence -/

theorem jsGet_eq_none_iff (m : List (String × JVal)) (k : String) :
    jsGet m k = none ↔ ∀ p ∈ m, p.1 ≠ k := by
  unfold jsGet
  cases hf : List.find? (fun p => p.1 == k) m with
  | none =>
      simp only [Option.map_none']
      constructor
      · intro _ p hp hpk
        have := List.find?_eq_none.mp hf p hp
        exact this (by simp [hpk])
      · intro _
        trivial
  | some p =>
      simp only [Option.map_some']
      constructor
      · intro h
        cases h
      · intro hall
        have hpred := List.find?_some hf
        have hmem := List.mem_of_find?_eq_some hf
        exact absurd (eq_of_beq hpred) (hall p hmem)

theorem hasKey_eq_false_iff (m : List (String × JVal)) (k : String) :
    hasKey m k = false ↔ ∀ p ∈ m, p.1 ≠ k := by
  rw [hasKey_false, jsGet_eq_none_iff]

theorem hasKey_append (m₁ m₂ : List (String × JVal)) (k : String) :
    hasKey (m₁ ++ m₂) k = (hasKey m₁ k || hasKey m₂ k) := by
  unfold hasKey
  rw [jsGet_append]
  cases jsGet m₁ k <;> cases jsGet m₂ k <;> simp [Option.or]

theorem hasKey_singleton (key k : String) (v : JVal) :
    hasKey [(key, v)] k = (key == k) := by
  unfold hasKey
  rw [jsGet_singleton]
  cases h : (key == k) <;> simp [h]

theorem objSet_map_fst (m : List (String × JVal)) (k : String) (v : JVal) :
    (objSet m k v).map Prod.fst =
      if hasKey m k then m.map Prod.fst else m.map Prod.fst ++ [k] := by
  unfold objSet
  by_cases h : hasKey m k = true
  · simp only [h, if_true, List.map_map]
    apply List.map_congr_left
    intro p _
    by_cases hpk : p.1 = k
    · simp [hpk]
    · simp [hpk]
  · simp [h]

theorem objSet_nodup (m : List (String × JVal)) (k : String) (v : JVal)
    (h : (m.map Prod.fst).Nodup) : ((objSet m k v).map Prod.fst).Nodup := by
  rw [objSet_map_fst]
  by_cases hk : hasKey m k = true
  · simpa [hk] using h
  · simp only [Bool.not_eq_true] at hk
    simp only [hk, Bool.false_eq_true, if_false]
    rw [List.nodup_append]
    refine ⟨h, by simp, ?_⟩
    intro a ha hb
    simp only [List.mem_singleton] at hb
    subst hb
    obtain ⟨q, hq, hq1⟩ := List.mem_map.mp ha
    exact ((hasKey_eq_false_iff m a).mp hk q hq) hq1

theorem objSet_keepVal (m : List (String × JVal)) (k : String) (v : JVal)
    (hv : keepVal v = true) (h : ∀ p ∈ m, keepVal p.2 = true) :
    ∀ p ∈ objSet m k v, keepVal p.2 = true := by
  intro p hp
  unfold objSet at hp
  by_cases hk : hasKey m k = true
  · simp only [hk, if_true] at hp
    obtain ⟨q, hq, rfl⟩ := List.mem_map.mp hp
    by_cases hqk : (q.1 == k) = true
    · simpa [hqk] using hv
    · simpa [hqk] using h q hq
  · simp only [Bool.not_eq_true] at hk
    simp only [hk, Bool.false_eq_true, if_false, List.mem_append,
      List.mem_singleton] at hp
    rcases hp with hp | rfl
    · exact h p hp
    · exact hv

theorem processFold_nodup (fields : List (String × JVal)) (flat : List (String × JVal))
    (h : (flat.map Prod.fst).Nodup) :
    ((fields.foldl processStep flat).map Prod.fst).Nodup := by
  induction fields generalizing flat with
  | nil => exact h
  | cons p rest ih =>
      simp only [List.foldl_cons]
      apply ih
      unfold processStep
      by_cases hkv : keepVal p.2 = true
      · simp only [hkv, if_true]
        exact objSet_nodup _ _ _ h
      · simpa [hkv] using h

theorem processFold_keepVal (fields : List (String × JVal)) (flat : List (String × JVal))
    (h : ∀ p ∈ flat, keepVal p.2 = true) :
    ∀ p ∈ fields.foldl processStep flat, keepVal p.2 = true := by
  induction fields generalizing flat with
  | nil => exact h
  | cons p rest ih =>
      simp only [List.foldl_cons]
      apply ih
      unfold processStep
      by_cases hkv : keepVal p.2 = true
      · simp only [hkv, if_true]
        exact objSet_keepVal _ _ _ hkv h
      · simpa [hkv] using h

theorem processGroup_nodup (flat : List (String × JVal)) (reqs : Option JVal)
    (h : (flat.map Prod.fst).Nodup) :
    ((processGroup flat reqs).map Prod.fst).Nodup := by
  unfold processGroup
  match reqs with
  | none => exact h
  | some JVal.null => exact h
  | some (JVal.str _) => exact h
  | some (JVal.obj fields) => exact processFold_nodup fields flat h

theorem processGroup_keepVal (flat : List (String × JVal)) (reqs : Option JVal)
    (h : ∀ p ∈ flat, keepVal p.2 = true) :
    ∀ p ∈ processGroup flat reqs, keepVal p.2 = true := by
  unfold processGroup
  match reqs with
  | none => exact h
  | some JVal.null => exact h
  | some (JVal.str _) => exact h
  | some (JVal.obj fields) => exact processFold_keepVal fields flat h

theorem topFold_nodup (fields : List (String × JVal)) (flat : List (String × JVal))
    (h : (flat.map Prod.fst).Nodup) :
    ((fields.foldl flattenTopStep flat).map Prod.fst).Nodup := by
  induction fields generalizing flat with
  | nil => exact h
  | cons p rest ih =>
      simp only [List.foldl_cons]
      apply ih
      unfold flattenTopStep
      by_cases hc : (!(p.1 == "mandatoryRequirements" || p.1 == "optionalRequirements")
          && !(hasKey flat p.1)) = true
      · simp only [hc, if_true]
        by_cases hkv : keepVal p.2 = true
        · simp only [hkv, if_true]
          have hfk : hasKey flat p.1 = false := by
            have hc' := hc
            simp only [Bool.and_eq_true, Bool.not_eq_true'] at hc'
            exact hc'.2
          rw [List.map_append, List.nodup_append]
          refine ⟨h, by simp, ?_⟩
          intro a ha hb
          simp only [List.map_cons, List.map_nil, List.mem_singleton] at hb
          subst hb
          obtain ⟨q, hq, hq1⟩ := List.mem_map.mp ha
          exact ((hasKey_eq_false_iff flat p.1).mp hfk q hq) hq1
        · simp only [Bool.not_eq_true] at hkv
          simp only [hkv, Bool.false_eq_true, if_false]
          exact h
      · simp only [Bool.not_eq_true] at hc
        simp only [hc, Bool.false_eq_true, if_false]
        exact h

theorem topFold_keepVal (fields : List (String × JVal)) (flat : List (String × JVal))
    (h : ∀ p ∈ flat, keepVal p.2 = true) :
    ∀ p ∈ fields.foldl flattenTopStep flat, keepVal p.2 = true := by
  induction fields generalizing flat with
  | nil => exact h
  | cons p rest ih =>
      simp only [List.foldl_cons]
      apply ih
      unfold flattenTopStep
      by_cases hc : (!(p.1 == "mandatoryRequirements" || p.1 == "optionalRequirements")
          && !(hasKey flat p.1)) = true
      · simp only [hc, if_true]
        by_cases hkv : keepVal p.2 = true
        · simp only [hkv, if_true]
          intro q hq
          rcases List.mem_append.mp hq with hq | hq
          · exact h q hq
          · simp only [List.mem_singleton] at hq
            subst hq
            exact hkv
        · simp only [Bool.not_eq_true] at hkv
          simp only [hkv, Bool.false_eq_true, if_false]
          exact h
      · simp only [Bool.not_eq_true] at hc
        simp only [hc, Bool.false_eq_true, if_false]
        exact h

theorem flatten_nodup (x : JVal) :
    ((flattenRequirements x).map Prod.fst).Nodup := by
  match x with
  | JVal.null => simp [flattenRequirements]
  | JVal.str _ => simp [flattenRequirements]
  | JVal.obj fields =>
      unfold flattenRequirements
      exact topFold_nodup fields _
        (processGroup_nodup _ _ (processGroup_nodup [] _ (by simp)))

theorem flatten_keepVal (x : JVal) :
    ∀ p ∈ flattenRequirements x, keepVal p.2 = true := by
  match x with
  | JVal.null => simp [flattenRequirements]
  | JVal.str _ => simp [flattenRequirements]
  | JVal.obj fields =>
      unfold flattenRequirements
      exact topFold_keepVal fields _
        (processGroup_keepVal _ _ (processGroup_keepVal [] _ (by simp)))

theorem topFold_of_fresh (m : List (String × JVal)) (flat : List (String × JVal))
    (hdisj : ∀ p ∈ m, hasKey flat p.1 = false)
    (hnodup : (m.map Prod.fst).Nodup)
    (hshape : ∀ p ∈ m, p.1 ≠ "mandatoryRequirements" ∧ p.1 ≠ "optionalRequirements" ∧
        keepVal p.2 = true) :
    m.foldl flattenTopStep flat = flat ++ m := by
  induction m generalizing flat with
  | nil => simp
  | cons p rest ih =>
      obtain ⟨hp1, hp2, hp3⟩ := hshape p (List.mem_cons_self p rest)
      have hpk := hdisj p (List.mem_cons_self p rest)
      have hstep : flattenTopStep flat p = flat ++ [p] := by
        unfold flattenTopStep
        have hb1 : (p.1 == "mandatoryRequirements") = false := by
          simp [beq_eq_false_iff_ne, hp1]
        have hb2 : (p.1 == "optionalRequirements") = false := by
          simp [beq_eq_false_iff_ne, hp2]
        simp [hb1, hb2, hpk, hp3]
      simp only [List.foldl_cons, hstep]
      have hnodup' : ((rest.map Prod.fst)).Nodup := (List.nodup_cons.mp (by simpa using hnodup)).2
      have hhead : p.1 ∉ rest.map Prod.fst := (List.nodup_cons.mp (by simpa using hnodup)).1
      rw [ih (flat ++ [p]) ?_ hnodup' (fun q hq => hshape q (List.mem_cons_of_mem _ hq))]
      · simp
      · intro q hq
        rw [hasKey_append, hasKey_singleton]
        have h1 : hasKey flat q.1 = false := hdisj q (List.mem_cons_of_mem _ hq)
        have h2 : (p.1 == q.1) = false := by
          simp only [beq_eq_false_iff_ne, ne_eq]
          intro he
          exact hhead (he ▸ List.mem_map_of_mem Prod.fst hq)
        simp [h1, h2]

theorem flatten_flat (m : List (String × JVal))
    (hnodup : (m.map Prod.fst).Nodup)
    (hshape : ∀ p ∈ m, p.1 ≠ "mandatoryRequirements" ∧ p.1 ≠ "optionalRequirements" ∧
        keepVal p.2 = true) :
    flattenRequirements (JVal.obj m) = m := by
  show m.foldl flattenTopStep
      (processGroup (processGroup [] (jsGet m "mandatoryRequirements"))
        (jsGet m "optionalRequirements")) = m
  have h1 : jsGet m "mandatoryRequirements" = none :=
    (jsGet_eq_none_iff m _).mpr (fun p hp => (hshape p hp).1)
  have h2 : jsGet m "optionalRequirements" = none :=
    (jsGet_eq_none_iff m _).mpr (fun p hp => (hshape p hp).2.1)
  rw [h1, h2]
  simp only [processGroup]
  have := topFold_of_fresh m [] (fun p _ => rfl) hnodup hshape
  simpa using this

/-- C8 (counterexample): flattening is not idempotent on every input —
a mandatory group whose field is itself named `mandatoryRequirements`
survives the first flattening as a top-level group name and is
re-flattened differently by the second pass. -/
theorem flatten_not_idempotent_counterexample :
    flattenRequirements (JVal.obj (flattenRequirements nestedEx))
      ≠ flattenRequirements nestedEx := by
  intro h
  have hkeys := congrArg (List.map Prod.fst) h
  have h1 : (flattenRequirements (JVal.obj (flattenRequirements nestedEx))).map Prod.fst
      = ["a"] := rfl
  have h2 : (flattenRequirements nestedEx).map Prod.fst = ["mandatoryRequirements"] := rfl
  rw [h1, h2] at hkeys
  exact absurd hkeys (by decide)

/-- C8 (amended): flattening an already-flat mapping of the shape it
produces — unique keys, no group-named keys, no null or empty-string
values — is the identity; and applying it twice equals applying it
once for every input whose first flattening yields no key named
`mandatoryRequirements` or `optionalRequirements` (without that
proviso idempotence fails, see the counterexample). -/
theorem flatten_idempotent (m : List (String × JVal)) (x : JVal)
    (hnodup : (m.map Prod.fst).Nodup)
    (hshape : ∀ p ∈ m, p.1 ≠ "mandatoryRequirements" ∧ p.1 ≠ "optionalRequirements" ∧
        keepVal p.2 = true)
    (hx : ∀ p ∈ flattenRequirements x,
        p.1 ≠ "mandatoryRequirements" ∧ p.1 ≠ "optionalRequirements") :
    flattenRequirements (JVal.obj m) = m ∧
    flattenRequirements (JVal.obj (flattenRequirements x)) = flattenRequirements x := by
  refine ⟨flatten_flat m hnodup hshape, ?_⟩
  exact flatten_flat _ (flatten_nodup x)
    (fun p hp => ⟨(hx p hp).1, (hx p hp).2, flatten_keepVal x p hp⟩)

/-- Witness for C8 at a concrete flat mapping and a concrete nested
input with a benign (non-group-named) field set. -/
theorem flatten_idempotent_witness :
    flattenRequirements (JVal.obj flatEx) = flatEx ∧
    flattenRequirements (JVal.obj (flattenRequirements benignEx))
      = flattenRequirements benignEx :=
  flatten_idempotent flatEx benignEx (by decide) (by decide) (by decide)

/-! ### C4 — analysis outcomes -/

/-- C4 (counterexample): the success toast does not count every
product at or above the 80 threshold — the source also requires
`requirementsMatch === true`, so a 90-scoring non-matching product is
counted by the claim (1) but not by the code (0). -/
theorem toast_count_counterexample :
    (performAnalysis stInit { oracleBase with analysis := Except.ok arHighNoMatch }).2
        = some 0 ∧
    (arHighNoMatch.overallRanking.rankedProducts.filter
        (fun p => decide (p.overallScore ≥ (80 : Int)))).length = 1 := by
  exact ⟨rfl, rfl⟩

/-- C4 (amended): on success the toast count is the number of ranked
products with `overallScore` at or above 80 AND a true match flag, the
full unfiltered analysis result is stored, a completion message is
appended, and the step becomes `initialInput`; on failure an error
message is appended and the step becomes `analysisError`; in both
cases the collected data and product type are left intact, so the
analysis can be re-triggered with the same data. -/
theorem performAnalysis_outcomes (st : SessionState) (o : Oracle) :
    (∀ analysis, o.analysis = Except.ok analysis →
      (performAnalysis st o).2 =
        some ((analysis.overallRanking.rankedProducts.filter
          (fun p => decide (p.overallScore ≥ (80 : Int))
            && (p.requirementsMatch == some true))).length) ∧
      (performAnalysis st o).1.analysisResult = some analysis ∧
      (performAnalysis st o).1.currentStep = WorkflowStep.initialInput ∧
      (performAnalysis st o).1.messages =
        st.messages ++ [⟨MsgType.assistant, o.analysisAgentResponse.content⟩] ∧
      (performAnalysis st o).1.collectedData = st.collectedData ∧
      (performAnalysis st o).1.productType = st.productType ∧
      (performAnalysis st o).1.isLoading = false) ∧
    (∀ e, o.analysis = Except.error e →
      (performAnalysis st o).2 = none ∧
      (performAnalysis st o).1.currentStep = WorkflowStep.analysisError ∧
      (performAnalysis st o).1.messages =
        st.messages ++ [⟨MsgType.assistant, o.analysisAgentResponse.content⟩] ∧
      (performAnalysis st o).1.collectedData = st.collectedData ∧
      (performAnalysis st o).1.analysisResult = st.analysisResult ∧
      (performAnalysis st o).1.productType = st.productType ∧
      (performAnalysis st o).1.requirementSchema = st.requirementSchema ∧
      (performAnalysis st o).1.isLoading = false) := by
  constructor
  · intro analysis h
    simp [performAnalysis, h, pushAssistant]
  · intro e h
    simp [performAnalysis, h, pushAssistant]

/-- Witness for C4: a successful analysis over the three matching
high-scoring products toasts 3, and a failing transport lands on
`analysisError`. -/
theorem performAnalysis_outcomes_witness :
    (performAnalysis stInit { oracleBase with analysis := Except.ok arEx }).2 = some 3 ∧
    (performAnalysis stInit oracleBase).1.currentStep = WorkflowStep.analysisError := by
  constructor
  · have h := ((performAnalysis_outcomes stInit
        { oracleBase with analysis := Except.ok arEx }).1 arEx rfl).1
    rw [h]
    rfl
  · exact ((performAnalysis_outcomes stInit oracleBase).2 () rfl).2.1

/-! ### C6 — knowledge questions leave the workflow in place -/

/-- C6: a message classified as `knowledgeQuestion` appends the user
message and the generated answer and clears the loading flag, leaving
the current step, collected data, product type, requirement schema and
analysis result untouched. -/
theorem knowledgeQuestion_frame (st : SessionState) (input : String) (o : Oracle)
    (hintent : o.intentResult.intent = Intent.knowledgeQuestion)
    (hinput : (jsTrim input == "") = false) :
    (handleSendMessage st input o).1.currentStep = st.currentStep ∧
    (handleSendMessage st input o).1.collectedData = st.collectedData ∧
    (handleSendMessage st input o).1.productType = st.productType ∧
    (handleSendMessage st input o).1.requirementSchema = st.requirementSchema ∧
    (handleSendMessage st input o).1.analysisResult = st.analysisResult ∧
    (handleSendMessage st input o).1.messages =
      st.messages ++ [⟨MsgType.user, jsTrim input⟩,
        ⟨MsgType.assistant, o.agentResponse.content⟩] ∧
    (handleSendMessage st input o).1.isLoading = false := by
  have hmain : handleSendMessage st input o =
      ({ st with
          messages := st.messages ++ [⟨MsgType.user, jsTrim input⟩,
            ⟨MsgType.assistant, o.agentResponse.content⟩],
          isLoading := false }, none) := by
    unfold handleSendMessage
    simp [hinput, hintent, addUserMsg, pushAssistant]
  rw [hmain]
  exact ⟨rfl, rfl, rfl, rfl, rfl, rfl, rfl⟩

/-- Witness for C6 at a concrete knowledge question. -/
theorem knowledgeQuestion_frame_witness :
    (handleSendMessage stInit "what is HART"
        { oracleBase with intentResult :=
            { intent := Intent.knowledgeQuestion, nextStep := none,
              resumeWorkflow := false } }).1.currentStep = stInit.currentStep :=
  (knowledgeQuestion_frame stInit "what is HART" _ rfl (by decide)).1

end AIRec
